import Mathlib

/-!
Verification development for the real-time bidirectional audio session engine
(`LiveClient`) of the TellMe repository.

The TypeScript class `LiveClient` (src/unnamed/part_000) is shallowly embedded
as a state record `LiveState` together with pure transition functions that
mirror the class methods line by line:

* `queueAudioOutput` — the playback scheduler (`enqueue`),
* `stopAudioOutput`  — the interruption flush,
* `disconnect`       — the teardown path,
* `connect`          — the ordered connect sequence,
* `getVolume` / `volumeTick` — the 20 Hz volume monitor,
* `onOpenOutbound`   — the outbound trace produced by the `onopen` handler.

Time values (the audio clock `currentTime`, scheduled start times, buffer
durations) are modelled as rationals.  A decoded audio buffer is represented by
its duration; the fallible decode step (`decodeAudioData`, awaited inside a
`try`/`catch`) is modelled by an `Except String` argument.  Each
`AudioBufferSourceNode` in the `scheduledSources` set is a `PlaybackUnit`
carrying its scheduled start time, its duration, and whether `stop()` has been
called on it.  Callback invocations (`onDisconnect`, `onVolume`) and outbound
wire messages are recorded as explicit `Event` values.
-/

/-- A scheduled playback unit: the model of one `AudioBufferSourceNode` held in
`scheduledSources`.  `stopped` records whether `stop()` has already been called
(calling `stop()` again on such a node throws an `InvalidStateError`). -/
structure PlaybackUnit where
  startTime : ℚ
  duration : ℚ
  stopped : Bool
deriving Repr, DecidableEq

/-- Observable effects of the client: callback invocations and outbound
messages on the live connection. -/
inductive Event where
  | onDisconnectEv : Event
  | onVolumeEv (userVolume aiVolume : ℚ) : Event
  | sendMediaEv (mimeType data : String) : Event
  | sendAudioFrameEv (frame : String) : Event
deriving Repr, DecidableEq

/-- The mutable fields of the `LiveClient` class.  Nullable resource handles
(`session`, the two `AudioContext`s, `mediaStream`, `processor`, `source`, the
two analysers, `volumeInterval`) are modelled as Booleans: `true` means the
field currently holds an acquired handle, `false` means it is `null`. -/
structure LiveState where
  session : Bool
  inputAudioContext : Bool
  outputAudioContext : Bool
  mediaStream : Bool
  processor : Bool
  source : Bool
  inputAnalyser : Bool
  outputAnalyser : Bool
  volumeInterval : Bool
  nextStartTime : ℚ
  scheduledSources : List PlaybackUnit
deriving Repr, DecidableEq

/-- The freshly constructed client: every handle `null`, `nextStartTime = 0`,
empty `scheduledSources`. -/
def LiveState.initial : LiveState :=
  { session := false
    inputAudioContext := false
    outputAudioContext := false
    mediaStream := false
    processor := false
    source := false
    inputAnalyser := false
    outputAnalyser := false
    volumeInterval := false
    nextStartTime := 0
    scheduledSources := [] }

/-- `source.stop()` on one playback unit: succeeds on a unit that is still
running, throws (`InvalidStateError`) on a unit that has already been
stopped. -/
def stopUnit (u : PlaybackUnit) : Except String PlaybackUnit :=
  if u.stopped then Except.error "InvalidStateError"
  else Except.ok { u with stopped := true }

/-- The body of the `forEach` loop in `stopAudioOutput`:
`try { source.stop(); } catch (e) {}` — the stop error is suppressed and the
unit is left as it was. -/
def stopUnitSuppressed (u : PlaybackUnit) : PlaybackUnit :=
  match stopUnit u with
  | Except.ok v => v
  | Except.error _ => u

/-- The same loop with NO `catch`: the first stop failure escapes.  This is
what `stopAudioOutput` would do without its `try`/`catch`; it exists to show
the suppression in the real code is load-bearing. -/
def stopAllUnitsUnguarded : List PlaybackUnit → Except String (List PlaybackUnit)
  | [] => Except.ok []
  | u :: rest =>
    match stopUnit u with
    | Except.error e => Except.error e
    | Except.ok v =>
      match stopAllUnitsUnguarded rest with
      | Except.error e => Except.error e
      | Except.ok vs => Except.ok (v :: vs)

/-- `LiveClient.stopAudioOutput` (the scheduler's `flush`): stop every unit in
`scheduledSources` with each stop error suppressed, clear the set, and reset
`nextStartTime` to `0`.  The second component returns the units as they stand
after the loop (the code drops them; we keep them to state properties about
the stopped units). -/
def stopAudioOutput (s : LiveState) : LiveState × List PlaybackUnit :=
  ({ s with scheduledSources := [], nextStartTime := 0 },
   s.scheduledSources.map stopUnitSuppressed)

/-- `LiveClient.queueAudioOutput` (the scheduler's `enqueue`).  Arguments: the
audio clock's `currentTime` at the moment of the call and the result of
`decodeAudioData` (the decoded buffer's duration, or a decode error).  Returns
the new state and the scheduled start time (`none` when the segment was
dropped or the decode failed).  Mirrors the source: early return when
`outputAudioContext` or `outputAnalyser` is `null`; the whole body is inside
`try`/`catch`, so a decode error is logged and the state is untouched;
otherwise `nextStartTime` is clamped up to `currentTime`, the unit starts at
`nextStartTime`, and `nextStartTime` advances by the buffer's duration. -/
def queueAudioOutput (s : LiveState) (currentTime : ℚ)
    (decoded : Except String ℚ) : LiveState × Option ℚ :=
  if s.outputAudioContext = false ∨ s.outputAnalyser = false then (s, none)
  else
    match decoded with
    | Except.error _ => (s, none)
    | Except.ok duration =>
      let start := if s.nextStartTime < currentTime then currentTime else s.nextStartTime
      ({ s with
          nextStartTime := start + duration
          scheduledSources := s.scheduledSources ++
            [{ startTime := start, duration := duration, stopped := false }] },
       some start)

/-- Run a sequence of `enqueue` calls.  Each element of the input list is a
pair `(currentTime, decoded duration)` — the clock value observed by that call
and a successfully decoded buffer.  Returns the final state and the list of
`(startTime, duration)` pairs actually scheduled, in arrival order. -/
def runEnqueues : LiveState → List (ℚ × ℚ) → LiveState × List (ℚ × ℚ)
  | s, [] => (s, [])
  | s, (t, d) :: rest =>
    let step := queueAudioOutput s t (Except.ok d)
    let tail := runEnqueues step.1 rest
    (tail.1,
     (match step.2 with
      | some st => [(st, d)]
      | none => []) ++ tail.2)

/-- `LiveClient.disconnect`: flush playback, then release each handle behind
its own `null` guard, clear the session, and invoke `onDisconnect` —
unconditionally, at the end of every call.  Returns the new state and the
events emitted by this call. -/
def disconnect (s : LiveState) : LiveState × List Event :=
  let s0 := (stopAudioOutput s).1
  let s1 := if s0.volumeInterval then { s0 with volumeInterval := false } else s0
  let s2 := if s1.processor then { s1 with processor := false } else s1
  let s3 := if s2.source then { s2 with source := false } else s2
  let s4 := if s3.mediaStream then { s3 with mediaStream := false } else s3
  let s5 := if s4.inputAudioContext then { s4 with inputAudioContext := false } else s4
  let s6 := if s5.outputAudioContext then { s5 with outputAudioContext := false } else s5
  ({ s6 with session := false }, [Event.onDisconnectEv])

/-- `LiveClient.connect` up to the point where the remote connection is
opened.  The ordered steps that mutate local state are: (1) create both audio
contexts and both analysers, (2) start the volume-monitoring timer,
(3) `await getUserMedia` — the one locally fallible acquisition, whose outcome
is the `micOk` argument — then (4) open the remote connection and store the
session handle.  A `getUserMedia` failure propagates out of `connect` as a
rejection (second component `false`); the mutations already performed remain,
exactly as thrown exceptions leave `this` in the source. -/
def connect (s : LiveState) (micOk : Bool) : LiveState × Bool :=
  let s1 := { s with
      inputAudioContext := true
      outputAudioContext := true
      inputAnalyser := true
      outputAnalyser := true }
  let s2 := { s1 with volumeInterval := true }
  if micOk then
    ({ s2 with mediaStream := true, session := true }, true)
  else
    (s2, false)

/-- `LiveClient.getVolume`: an analyser is modelled by the byte-frequency
snapshot it would return (`getByteFrequencyData`), a list of bin magnitudes
each in `0..255`; a `null` analyser yields `0`.  Otherwise the result is the
arithmetic mean of the bins divided by `255`. -/
def getVolume (analyser : Option (List ℕ)) : ℚ :=
  match analyser with
  | none => 0
  | some bins => ((bins.sum : ℚ) / (bins.length : ℚ)) / 255

/-- One tick of the `startVolumeMonitoring` interval: read both taps and
invoke `onVolume` once with the two levels. -/
def volumeTick (inputBins outputBins : Option (List ℕ)) : List Event :=
  [Event.onVolumeEv (getVolume inputBins) (getVolume outputBins)]

/-- The test `mimeType.startsWith('image/')` from the `onopen` handler,
expressed on the string's character list (which is what `String.startsWith`
compares) so that it is kernel-computable. -/
def startsWithImage (m : String) : Bool := List.isPrefixOf "image/".data m.data

/-- The outbound trace produced from the `onopen` callback onwards: if the
artifact's media type starts with `image/`, one inline media message is sent
through the session promise; then `startAudioInput` installs the processor
whose frames (`audioFrames`, in capture order) are each sent as an audio
message.  The image send is registered on the session promise before any
`onaudioprocess` event can register a frame send, so it precedes every
frame. -/
def onOpenOutbound (mimeType data : String) (audioFrames : List String) :
    List Event :=
  (if startsWithImage mimeType then [Event.sendMediaEv mimeType data] else [])
    ++ audioFrames.map Event.sendAudioFrameEv

/-- A state with a healthy connected session: every handle acquired. -/
def LiveState.connected : LiveState :=
  { session := true
    inputAudioContext := true
    outputAudioContext := true
    mediaStream := true
    processor := true
    source := true
    inputAnalyser := true
    outputAnalyser := true
    volumeInterval := true
    nextStartTime := 0
    scheduledSources := [] }

/-! ## Helper lemmas -/

theorem stopUnitSuppressed_stopped (u : PlaybackUnit) :
    (stopUnitSuppressed u).stopped = true := by
  cases h : u.stopped <;> simp [stopUnitSuppressed, stopUnit, h]

theorem stopUnit_stopped_error (u : PlaybackUnit) (h : u.stopped = true) :
    stopUnit u = Except.error "InvalidStateError" := by
  simp [stopUnit, h]

theorem stopAllUnitsUnguarded_escapes (l : List PlaybackUnit) (u : PlaybackUnit)
    (hu : u ∈ l) (hs : u.stopped = true) :
    ∃ e, stopAllUnitsUnguarded l = Except.error e := by
  induction l with
  | nil => cases hu
  | cons v rest ih =>
    rcases List.mem_cons.mp hu with h | h
    · subst h
      exact ⟨"InvalidStateError", by simp [stopAllUnitsUnguarded, stopUnit, hs]⟩
    · cases hv : v.stopped
      · obtain ⟨e, he⟩ := ih h
        exact ⟨e, by simp [stopAllUnitsUnguarded, stopUnit, hv, he]⟩
      · exact ⟨"InvalidStateError", by simp [stopAllUnitsUnguarded, stopUnit, hv]⟩

theorem ite_lt_eq_max (a t : ℚ) : (if a < t then t else a) = max a t := by
  rcases le_or_lt t a with h | h
  · rw [if_neg (not_lt.mpr h), max_eq_left h]
  · rw [if_pos h, max_eq_right h.le]

theorem queueAudioOutput_ok (s : LiveState) (t d : ℚ)
    (hc : s.outputAudioContext = true) (ha : s.outputAnalyser = true) :
    queueAudioOutput s t (Except.ok d) =
      ({ s with
          nextStartTime := max s.nextStartTime t + d
          scheduledSources := s.scheduledSources ++
            [{ startTime := max s.nextStartTime t, duration := d, stopped := false }] },
       some (max s.nextStartTime t)) := by
  simp [queueAudioOutput, hc, ha, ite_lt_eq_max]

theorem queueAudioOutput_error (s : LiveState) (t : ℚ) (e : String) :
    queueAudioOutput s t (Except.error e) = (s, none) := by
  unfold queueAudioOutput
  split <;> rfl

theorem disconnect_state (s : LiveState) :
    (disconnect s).1 =
      { LiveState.initial with
          inputAnalyser := s.inputAnalyser, outputAnalyser := s.outputAnalyser } := by
  obtain ⟨se, iac, oac, ms, pr, src, ia, oa, vi, nst, ss⟩ := s
  cases vi <;> cases pr <;> cases src <;> cases ms <;> cases iac <;> cases oac <;> rfl

/-- `Chained c l`: the `(startTime, duration)` pairs in `l` are scheduled in
order from timeline cursor `c`: each start is at or after the cursor, and the
cursor advances to the segment's end. -/
def Chained : ℚ → List (ℚ × ℚ) → Prop
  | _, [] => True
  | c, (st, d) :: rest => c ≤ st ∧ Chained (st + d) rest

theorem chained_le_start (c : ℚ) (l : List (ℚ × ℚ)) (hc : Chained c l)
    (hd : ∀ p ∈ l, 0 ≤ p.2) : ∀ p ∈ l, c ≤ p.1 := by
  induction l generalizing c with
  | nil => intro p hp; cases hp
  | cons q rest ih =>
    obtain ⟨st, d⟩ := q
    obtain ⟨h1, h2⟩ := hc
    intro p hp
    rcases List.mem_cons.mp hp with h | h
    · subst h; exact h1
    · have hd0 : (0:ℚ) ≤ d := hd (st, d) (List.mem_cons_self _ _)
      have := ih (st + d) h2 (fun p hp => hd p (List.mem_cons_of_mem _ hp)) p h
      linarith

theorem chained_pairwise (c : ℚ) (l : List (ℚ × ℚ)) (hc : Chained c l)
    (hd : ∀ p ∈ l, 0 ≤ p.2) :
    l.Pairwise (fun a b => a.1 + a.2 ≤ b.1) := by
  induction l generalizing c with
  | nil => exact List.Pairwise.nil
  | cons q rest ih =>
    obtain ⟨st, d⟩ := q
    obtain ⟨h1, h2⟩ := hc
    refine List.Pairwise.cons ?_ (ih (st + d) h2 (fun p hp => hd p (List.mem_cons_of_mem _ hp)))
    intro b hb
    exact chained_le_start (st + d) rest h2
      (fun p hp => hd p (List.mem_cons_of_mem _ hp)) b hb

theorem runEnqueues_flags (s : LiveState) (l : List (ℚ × ℚ)) :
    (runEnqueues s l).1.outputAudioContext = s.outputAudioContext ∧
      (runEnqueues s l).1.outputAnalyser = s.outputAnalyser := by
  induction l generalizing s with
  | nil => exact ⟨rfl, rfl⟩
  | cons q rest ih =>
    obtain ⟨t, d⟩ := q
    have hstep : ((queueAudioOutput s t (Except.ok d)).1.outputAudioContext
          = s.outputAudioContext) ∧
        ((queueAudioOutput s t (Except.ok d)).1.outputAnalyser = s.outputAnalyser) := by
      unfold queueAudioOutput
      split
      · exact ⟨rfl, rfl⟩
      · exact ⟨rfl, rfl⟩
    obtain ⟨h1, h2⟩ := ih (queueAudioOutput s t (Except.ok d)).1
    exact ⟨by rw [runEnqueues]; rw [h1, hstep.1], by rw [runEnqueues]; rw [h2, hstep.2]⟩

theorem runEnqueues_chained (s : LiveState) (l : List (ℚ × ℚ))
    (hc : s.outputAudioContext = true) (ha : s.outputAnalyser = true) :
    Chained s.nextStartTime (runEnqueues s l).2 := by
  induction l generalizing s with
  | nil => trivial
  | cons q rest ih =>
    obtain ⟨t, d⟩ := q
    rw [runEnqueues]
    rw [queueAudioOutput_ok s t d hc ha]
    refine ⟨le_max_left _ _, ?_⟩
    have := ih { s with
        nextStartTime := max s.nextStartTime t + d
        scheduledSources := s.scheduledSources ++
          [{ startTime := max s.nextStartTime t, duration := d, stopped := false }] }
      hc ha
    simpa using this

/-! ## Claim theorems -/

/-- C1 (counterexample): `disconnect` is NOT idempotent with respect to the
`onDisconnect` callback.  Starting from a fully connected session, calling
`disconnect` twice in a row emits `onDisconnect` twice — the claim's "exactly
one invocation" is false, because `disconnect` invokes the callback
unconditionally on every call, with no session-existence guard. -/
theorem disconnect_twice_fires_twice :
    ((disconnect LiveState.connected).2
        ++ (disconnect (disconnect LiveState.connected).1).2)
      = [Event.onDisconnectEv, Event.onDisconnectEv] ∧
    ¬ ((disconnect LiveState.connected).2
        ++ (disconnect (disconnect LiveState.connected).1).2).length = 1 := by
  constructor
  · rfl
  · decide

/-- C1 (amended): every call to `disconnect` — including a call when no
session exists — runs to completion and emits `onDisconnect` exactly once per
call (so two successive calls emit it twice, once each); each resource release
is individually guarded, so a second `disconnect` finds every handle already
released and leaves the state unchanged. -/
theorem disconnect_per_call_contract (s : LiveState) :
    (disconnect s).2 = [Event.onDisconnectEv] ∧
    (disconnect (disconnect s).1).1 = (disconnect s).1 := by
  refine ⟨rfl, ?_⟩
  rw [disconnect_state s, disconnect_state]

/-- C4 (code bug): when microphone acquisition fails during `connect`
(e.g. permission denied), the later steps are indeed aborted and `connect`
rejects, but NO teardown runs: the two audio contexts, both analysers, and the
20 Hz volume-monitoring timer acquired by the earlier steps all remain
acquired afterwards.  The claim (and the spec's "each step's failure …
triggers the same teardown path as disconnect"; "no partial session left
running") is contradicted: the code neither calls `disconnect` on the failure
path nor does its caller (`toggleLiveSession` merely drops the client
reference), leaving the interval timer running forever. -/
theorem connect_failure_leaks_resources :
    (connect LiveState.initial false).2 = false ∧
    (connect LiveState.initial false).1.inputAudioContext = true ∧
    (connect LiveState.initial false).1.outputAudioContext = true ∧
    (connect LiveState.initial false).1.inputAnalyser = true ∧
    (connect LiveState.initial false).1.outputAnalyser = true ∧
    (connect LiveState.initial false).1.volumeInterval = true ∧
    (connect LiveState.initial false).1.mediaStream = false := by
  exact ⟨rfl, rfl, rfl, rfl, rfl, rfl, rfl⟩

/-- C6: an inbound segment whose payload fails to decode is logged and
skipped: `queueAudioOutput` returns normally (the decode error is caught
inside the method and never escapes) and the scheduler state is completely
unchanged — the timeline cursor keeps its prior value and the active set gains
no unit. -/
theorem decode_failure_leaves_state_unchanged (s : LiveState) (t : ℚ)
    (e : String) :
    queueAudioOutput s t (Except.error e) = (s, none) :=
  queueAudioOutput_error s t e

/-- C7: the flush (`stopAudioOutput`) never lets a stop-failure escape.  For
every active set — including sets containing already-stopped units — every
unit ends up stopped, the set is always emptied, and the function (a total
function, also as the first step of the `disconnect` teardown) runs to
completion.  Had the per-unit `try`/`catch` been absent, an already-stopped
unit in the set would make the stop loop raise an error (third conjunct), so
the suppression is load-bearing. -/
theorem flush_always_completes (s : LiveState) :
    (stopAudioOutput s).1.scheduledSources = [] ∧
    (∀ u ∈ (stopAudioOutput s).2, u.stopped = true) ∧
    ((∃ u ∈ s.scheduledSources, u.stopped = true) →
      ∃ e, stopAllUnitsUnguarded s.scheduledSources = Except.error e) ∧
    (disconnect s).1.scheduledSources = [] := by
  refine ⟨rfl, ?_, ?_, ?_⟩
  · intro u hu
    obtain ⟨v, _, hv⟩ := List.mem_map.mp hu
    rw [← hv]
    exact stopUnitSuppressed_stopped v
  · rintro ⟨u, hu, hs⟩
    exact stopAllUnitsUnguarded_escapes _ u hu hs
  · rw [disconnect_state s]
    rfl

/-- C7 witness: a concrete active set holding one already-stopped unit — the
flush empties the set, and the unguarded loop on that same set raises. -/
theorem flush_always_completes_witness :
    (stopAudioOutput { LiveState.connected with
        scheduledSources := [{ startTime := 0, duration := 1, stopped := true }] }).1.scheduledSources
      = [] ∧
    ∃ e, stopAllUnitsUnguarded ({ LiveState.connected with
        scheduledSources := [{ startTime := 0, duration := 1, stopped := true }] } : LiveState).scheduledSources
      = Except.error e :=
  ⟨(flush_always_completes _).1,
   (flush_always_completes { LiveState.connected with
        scheduledSources := [{ startTime := 0, duration := 1, stopped := true }] }).2.2.1
     ⟨{ startTime := 0, duration := 1, stopped := true }, List.mem_cons_self _ _, rfl⟩⟩

theorem runEnqueues_duration_mem (s : LiveState) (l : List (ℚ × ℚ)) :
    ∀ p ∈ (runEnqueues s l).2, p.2 ∈ l.map Prod.snd := by
  induction l generalizing s with
  | nil => intro p hp; cases hp
  | cons q rest ih =>
    obtain ⟨t, d⟩ := q
    intro p hp
    rw [runEnqueues] at hp
    rcases List.mem_append.mp hp with h | h
    · rcases hstep : (queueAudioOutput s t (Except.ok d)).2 with _ | st
      · rw [hstep] at h; cases h
      · rw [hstep] at h
        simp only [List.mem_singleton] at h
        subst h
        simp
    · have := ih (queueAudioOutput s t (Except.ok d)).1 p h
      simp only [List.map_cons, List.mem_cons]
      exact Or.inr (by simpa using this)

/-- C2: scheduling discipline of the playback scheduler.  For any state with
the playback context and analyser live: (1) an `enqueue` observing clock time
`t` schedules its segment to start at `max nextStartTime t` — i.e. at
`max(end of previous segment, currentTime)`; (2) the cursor advances to that
start plus the decoded duration (the new segment's end); (3) if the clock has
not caught up with the previous end (`t ≤ nextStartTime`), the new segment
starts exactly at the previous end — back-to-back segments play contiguously
with no gap; (4) over any sequence of `enqueue` calls with nonnegative
durations, the scheduled `(start, duration)` pairs are pairwise
non-overlapping in arrival order: every earlier segment ends at or before
every later segment starts. -/
theorem enqueue_start_is_max (s : LiveState) (t d : ℚ) (l : List (ℚ × ℚ))
    (hc : s.outputAudioContext = true) (ha : s.outputAnalyser = true)
    (hd : ∀ p ∈ l, 0 ≤ p.2) :
    (queueAudioOutput s t (Except.ok d)).2 = some (max s.nextStartTime t) ∧
    (queueAudioOutput s t (Except.ok d)).1.nextStartTime
      = max s.nextStartTime t + d ∧
    (t ≤ s.nextStartTime →
      (queueAudioOutput s t (Except.ok d)).2 = some s.nextStartTime) ∧
    List.Pairwise (fun a b => a.1 + a.2 ≤ b.1) (runEnqueues s l).2 := by
  refine ⟨?_, ?_, ?_, ?_⟩
  · rw [queueAudioOutput_ok s t d hc ha]
  · rw [queueAudioOutput_ok s t d hc ha]
  · intro ht
    rw [queueAudioOutput_ok s t d hc ha, max_eq_left ht]
  · refine chained_pairwise s.nextStartTime _ (runEnqueues_chained s l hc ha) ?_
    intro p hp
    obtain ⟨q, hq, hqe⟩ := List.mem_map.mp (runEnqueues_duration_mem s l p hp)
    rw [← hqe]
    exact hd q hq

/-- C2 witness: from the connected state (cursor 0), enqueueing at clock time
1 with duration 2 schedules start `max 0 1`, and the two-segment sequence
`[(0,1), (0,2)]` is scheduled without overlap. -/
theorem enqueue_start_is_max_witness :
    (∀ p ∈ ([((0:ℚ), (1:ℚ)), (0, 2)] : List (ℚ × ℚ)), 0 ≤ p.2) ∧
    ((queueAudioOutput LiveState.connected 1 (Except.ok 2)).2
        = some (max LiveState.connected.nextStartTime 1) ∧
      (queueAudioOutput LiveState.connected 1 (Except.ok 2)).1.nextStartTime
        = max LiveState.connected.nextStartTime 1 + 2 ∧
      ((1:ℚ) ≤ LiveState.connected.nextStartTime →
        (queueAudioOutput LiveState.connected 1 (Except.ok 2)).2
          = some LiveState.connected.nextStartTime) ∧
      List.Pairwise (fun a b => a.1 + a.2 ≤ b.1)
        (runEnqueues LiveState.connected [(0, 1), (0, 2)]).2) :=
  ⟨by norm_num,
   enqueue_start_is_max LiveState.connected 1 2 [(0, 1), (0, 2)] rfl rfl
     (by norm_num)⟩

/-- C3: receiving an interruption signal (the `onmessage` handler calls
`stopAudioOutput`, i.e. flush) immediately stops every unit, empties the
active set, and resets the cursor; the first `enqueue` performed afterwards —
at any clock time `t ≥ 0` — schedules its segment to start exactly at `t`
("now"), not at the previously scheduled, now-cancelled end time. -/
theorem interruption_restarts_at_now (s : LiveState) (t d : ℚ) (ht : 0 ≤ t)
    (hc : s.outputAudioContext = true) (ha : s.outputAnalyser = true) :
    (stopAudioOutput s).1.scheduledSources = [] ∧
    (∀ u ∈ (stopAudioOutput s).2, u.stopped = true) ∧
    (queueAudioOutput (stopAudioOutput s).1 t (Except.ok d)).2 = some t := by
  refine ⟨rfl, ?_, ?_⟩
  · intro u hu
    obtain ⟨v, _, hv⟩ := List.mem_map.mp hu
    rw [← hv]
    exact stopUnitSuppressed_stopped v
  · have hc2 : (stopAudioOutput s).1.outputAudioContext = true := hc
    have ha2 : (stopAudioOutput s).1.outputAnalyser = true := ha
    rw [queueAudioOutput_ok _ t d hc2 ha2]
    have h0 : (stopAudioOutput s).1.nextStartTime = 0 := rfl
    rw [h0, max_eq_right ht]

/-- C3 witness: a session with two segments scheduled ahead of the clock
(cursor at 5) is interrupted; the next enqueue at clock time 3 starts at 3. -/
theorem interruption_restarts_at_now_witness :
    (0:ℚ) ≤ 3 ∧
    ((stopAudioOutput { LiveState.connected with
        nextStartTime := 5
        scheduledSources := [{ startTime := 0, duration := 2, stopped := false },
                             { startTime := 2, duration := 3, stopped := false }] }).1.scheduledSources
        = [] ∧
      (∀ u ∈ (stopAudioOutput { LiveState.connected with
          nextStartTime := 5
          scheduledSources := [{ startTime := 0, duration := 2, stopped := false },
                               { startTime := 2, duration := 3, stopped := false }] }).2,
        u.stopped = true) ∧
      (queueAudioOutput (stopAudioOutput { LiveState.connected with
          nextStartTime := 5
          scheduledSources := [{ startTime := 0, duration := 2, stopped := false },
                               { startTime := 2, duration := 3, stopped := false }] }).1
          3 (Except.ok 1)).2 = some 3) :=
  ⟨by norm_num,
   interruption_restarts_at_now _ 3 1 (by norm_num) rfl rfl⟩

/-- C5 (counterexample): the playback timeline cursor is NOT monotonically
non-decreasing across all session operations.  From the connected state,
one enqueue (duration 1, clock 0) raises the cursor to 1; the interruption
flush then assigns it 0 — a strictly smaller value. -/
theorem flush_decreases_cursor :
    (stopAudioOutput (queueAudioOutput LiveState.connected 0 (Except.ok 1)).1).1.nextStartTime
      < (queueAudioOutput LiveState.connected 0 (Except.ok 1)).1.nextStartTime := by
  norm_num [stopAudioOutput, queueAudioOutput, LiveState.connected]

/-- C5 (amended): within a session the cursor is monotonically non-decreasing
under `enqueue` (for nonnegative decoded durations) and unchanged by a failed
decode, but the interruption/flush path resets it to `0`, which is a decrease
whenever segments were scheduled ahead of the clock. -/
theorem cursor_monotone_under_enqueue (s : LiveState) (t d : ℚ) (hd : 0 ≤ d)
    (e : String) :
    s.nextStartTime ≤ (queueAudioOutput s t (Except.ok d)).1.nextStartTime ∧
    (queueAudioOutput s t (Except.error e)).1.nextStartTime = s.nextStartTime ∧
    (stopAudioOutput s).1.nextStartTime = 0 := by
  refine ⟨?_, by rw [queueAudioOutput_error], rfl⟩
  by_cases hg : s.outputAudioContext = false ∨ s.outputAnalyser = false
  · simp [queueAudioOutput, hg]
  · push_neg at hg
    have hc : s.outputAudioContext = true := by
      cases h : s.outputAudioContext
      · exact absurd h hg.1
      · rfl
    have ha : s.outputAnalyser = true := by
      cases h : s.outputAnalyser
      · exact absurd h hg.2
      · rfl
    rw [queueAudioOutput_ok s t d hc ha]
    dsimp only
    have := le_max_left s.nextStartTime t
    linarith

/-- C5 amended witness: concrete monotone step from the connected state. -/
theorem cursor_monotone_under_enqueue_witness :
    (0:ℚ) ≤ 2 ∧
    (LiveState.connected.nextStartTime
        ≤ (queueAudioOutput LiveState.connected 1 (Except.ok 2)).1.nextStartTime ∧
      (queueAudioOutput LiveState.connected 1 (Except.error "bad")).1.nextStartTime
        = LiveState.connected.nextStartTime ∧
      (stopAudioOutput LiveState.connected).1.nextStartTime = 0) :=
  ⟨by norm_num, cursor_monotone_under_enqueue LiveState.connected 1 2 (by norm_num) "bad"⟩

theorem getVolume_bounds (bins : List ℕ) (h : bins ≠ [])
    (hb : ∀ x ∈ bins, x ≤ 255) :
    0 ≤ getVolume (some bins) ∧ getVolume (some bins) ≤ 1 := by
  have hlen : (0:ℚ) < (bins.length : ℚ) := by
    exact_mod_cast List.length_pos.mpr h
  have hsum_nat : bins.sum ≤ bins.length * 255 := by
    have := List.sum_le_card_nsmul bins 255 hb
    simpa [smul_eq_mul] using this
  have hsum : (bins.sum : ℚ) ≤ (bins.length : ℚ) * 255 := by exact_mod_cast hsum_nat
  constructor
  · unfold getVolume
    positivity
  · unfold getVolume
    rw [div_le_one (by norm_num : (0:ℚ) < 255), div_le_iff₀ hlen]
    linarith

/-- C8: on every volume-monitor tick the reported level of a tap with
frequency snapshot `bins` equals the arithmetic mean of the bin magnitudes
divided by 255; since each byte magnitude lies in `0..255`, the level lies in
`[0, 1]`; and the tick delivers both levels together in exactly one `onVolume`
callback invocation. -/
theorem volume_tick_mean_bounds (bins1 bins2 : List ℕ)
    (h1 : bins1 ≠ []) (hb1 : ∀ x ∈ bins1, x ≤ 255)
    (h2 : bins2 ≠ []) (hb2 : ∀ x ∈ bins2, x ≤ 255) :
    getVolume (some bins1) = ((bins1.sum : ℚ) / (bins1.length : ℚ)) / 255 ∧
    (0 ≤ getVolume (some bins1) ∧ getVolume (some bins1) ≤ 1) ∧
    (0 ≤ getVolume (some bins2) ∧ getVolume (some bins2) ≤ 1) ∧
    volumeTick (some bins1) (some bins2)
      = [Event.onVolumeEv (getVolume (some bins1)) (getVolume (some bins2))] :=
  ⟨rfl, getVolume_bounds bins1 h1 hb1, getVolume_bounds bins2 h2 hb2, rfl⟩

/-- C8 witness: snapshots `[0, 255]` (mean 127.5, level 1/2) and `[255]`
(level 1). -/
theorem volume_tick_mean_bounds_witness :
    ([0, 255] ≠ ([] : List ℕ)) ∧
    (getVolume (some [0, 255]) = (((([0, 255] : List ℕ).sum : ℚ)) / (([0, 255] : List ℕ).length : ℚ)) / 255 ∧
      (0 ≤ getVolume (some [0, 255]) ∧ getVolume (some [0, 255]) ≤ 1) ∧
      (0 ≤ getVolume (some [255]) ∧ getVolume (some [255]) ≤ 1) ∧
      volumeTick (some [0, 255]) (some [255])
        = [Event.onVolumeEv (getVolume (some [0, 255])) (getVolume (some [255]))]) :=
  ⟨by simp,
   volume_tick_mean_bounds [0, 255] [255] (by simp) (by decide) (by simp) (by decide)⟩

/-- C9: for every connect whose artifact has an image media type, the `onopen`
handler sends the artifact exactly once as an inline media payload, and it
appears in the outbound trace before every audio frame (it is the head of the
trace, with all frames after it); for a non-image artifact no media payload is
sent and the trace is exactly the audio frames. -/
theorem initial_image_sent_once (mimeType data : String)
    (frames : List String) :
    (startsWithImage mimeType = true →
      onOpenOutbound mimeType data frames
        = Event.sendMediaEv mimeType data :: frames.map Event.sendAudioFrameEv) ∧
    (startsWithImage mimeType = false →
      onOpenOutbound mimeType data frames = frames.map Event.sendAudioFrameEv) ∧
    (onOpenOutbound mimeType data frames).countP
        (fun ev => match ev with | Event.sendMediaEv _ _ => true | _ => false)
      = (if startsWithImage mimeType then 1 else 0) := by
  refine ⟨?_, ?_, ?_⟩
  · intro h
    simp [onOpenOutbound, h]
  · intro h
    simp [onOpenOutbound, h]
  · cases h : startsWithImage mimeType <;>
      simp [onOpenOutbound, h, List.countP_append, List.countP_cons, List.countP_map,
        Function.comp]

/-- C9 witness: a JPEG artifact with one audio frame — the media payload is
sent once, first; a PDF artifact sends no media payload. -/
theorem initial_image_sent_once_witness :
    (startsWithImage "image/jpeg" = true ∧
      onOpenOutbound "image/jpeg" "d0" ["f0"]
        = Event.sendMediaEv "image/jpeg" "d0"
            :: List.map Event.sendAudioFrameEv ["f0"]) ∧
    (startsWithImage "application/pdf" = false ∧
      onOpenOutbound "application/pdf" "d0" ["f0"]
        = List.map Event.sendAudioFrameEv ["f0"]) :=
  ⟨⟨by decide, (initial_image_sent_once "image/jpeg" "d0" ["f0"]).1 (by decide)⟩,
   ⟨by decide, (initial_image_sent_once "application/pdf" "d0" ["f0"]).2.1 (by decide)⟩⟩

/-- C10: an inbound speech payload arriving after the playback context has
been released (`outputAudioContext = null`, as after a completed `disconnect`,
whose resulting state indeed has the context released — second conjunct) is
silently dropped: `queueAudioOutput` returns at its guard with the state
completely unchanged, no unit scheduled and no start time produced, whatever
the decode argument would have yielded; and a volume read against a released
(`null`) analyser yields `0` instead of failing. -/
theorem released_context_drops (s q : LiveState)
    (h : s.outputAudioContext = false) (t : ℚ) (d : Except String ℚ) :
    queueAudioOutput s t d = (s, none) ∧
    (disconnect q).1.outputAudioContext = false ∧
    getVolume none = 0 := by
  refine ⟨?_, ?_, rfl⟩
  · unfold queueAudioOutput
    rw [if_pos (Or.inl h)]
  · rw [disconnect_state q]
    rfl

/-- C10 witness: the state left by a completed disconnect drops an enqueue
carrying a successfully decodable payload. -/
theorem released_context_drops_witness :
    ((disconnect LiveState.connected).1.outputAudioContext = false) ∧
    (queueAudioOutput (disconnect LiveState.connected).1 2 (Except.ok 1)
        = ((disconnect LiveState.connected).1, none) ∧
      (disconnect LiveState.initial).1.outputAudioContext = false ∧
      getVolume none = 0) :=
  ⟨rfl, released_context_drops (disconnect LiveState.connected).1
    LiveState.initial rfl 2 (Except.ok 1)⟩
